import Mathlib

/-!
Shallow embedding of the taiko-reth payload builder core
(`crates/payload/builder/src/database.rs` and
`crates/payload/taiko/src/builder.rs`), with theorems settling the
spec claims about it.

Modelling conventions:
* Rust `HashMap` values are modelled as association lists (`List (κ × ν)`)
  with first-match lookup; `Entry::Vacant`-insertion conses a fresh key,
  `Entry::Occupied` mutation rewrites the matching entry in place.
* Machine integers (`u64`, `u128`, `U256`) are modelled as `Nat`; the gas
  and blob-gas quantities handled by the builder stay far below `2^64`, so
  wrap-around does not affect the guarded comparisons embedded here.
* Addresses, hashes and account infos are opaque to every claim, so they
  are modelled as `Nat`.
* Calls into the injected state provider are made observable: each cache
  operation returns, alongside its result and the updated cache, the list
  of provider calls it performed, one entry per `self.db.*_ref(..)` call
  site in the source.
-/

namespace TaikoReth

/-- Association-list lookup: first entry whose key matches. -/
def alLookup {α β : Type} [DecidableEq α] : List (α × β) → α → Option β
  | [], _ => none
  | (k', v) :: rest, k => if k' = k then some v else alLookup rest k

/-- Rewrite the value stored at key `k` in place (models mutation through
an `Entry::Occupied`). -/
def alUpdate {α β : Type} [DecidableEq α] (f : β → β) : List (α × β) → α → List (α × β)
  | [], _ => []
  | (k', v) :: rest, k =>
      if k' = k then (k', f v) :: rest else (k', v) :: alUpdate f rest k

/-- Ethereum address (`Address`), opaque here. -/
abbrev Address := Nat

/-- 256-bit word (`U256`), opaque here. -/
abbrev U256 := Nat

/-- 256-bit hash (`B256`), opaque here. -/
abbrev B256 := Nat

/-- Account information (`AccountInfo`), opaque here. -/
abbrev AccountInfo := Nat

/-- Contract bytecode (`Bytecode`), opaque here. -/
abbrev Bytecode := Nat

/-- `CachedAccount` from `database.rs`: optional account info (`none` =
known absent) plus a storage-slot map. -/
structure CachedAccount where
  info : Option AccountInfo
  storage : List (U256 × U256)
  deriving DecidableEq, Repr

/-- `CachedAccount::new(info)`: empty storage map. -/
def CachedAccount.new (info : Option AccountInfo) : CachedAccount :=
  { info := info, storage := [] }

/-- `CachedReads` from `database.rs`: the plain (single-chain) read cache. -/
structure CachedReads where
  accounts : List (Address × CachedAccount)
  contracts : List (B256 × Bytecode)
  block_hashes : List (Nat × B256)
  deriving DecidableEq, Repr

/-- `CachedReads::default()`. -/
def CachedReads.empty : CachedReads :=
  { accounts := [], contracts := [], block_hashes := [] }

/-- The injected read-only state provider (the `DatabaseRef` the adapter
wraps). Each operation may fail with an error `ε`. -/
structure DatabaseRef (ε : Type) where
  basic_ref : Address → Except ε (Option AccountInfo)
  storage_ref : Address → U256 → Except ε U256
  code_by_hash_ref : B256 → Except ε Bytecode
  block_hash_ref : Nat → Except ε B256

/-- One observable call into the injected provider. -/
inductive ProviderCall where
  | basicCall (address : Address)
  | storageCall (address : Address) (index : U256)
  | codeCall (codeHash : B256)
  | blockHashCall (number : Nat)
  deriving DecidableEq, Repr

namespace CachedReadsDbMut

/-- `CachedReadsDbMut::basic` from `database.rs`: on a cached address
return the stored info; otherwise call `db.basic_ref` once, cache the
result (also a `none` result) and return it. The third component is the
trace of provider calls performed. -/
def basic {ε : Type} (cached : CachedReads) (db : DatabaseRef ε) (address : Address) :
    Except ε (Option AccountInfo × CachedReads × List ProviderCall) :=
  match alLookup cached.accounts address with
  | some acc => .ok (acc.info, cached, [])
  | none =>
      match db.basic_ref address with
      | .error e => .error e
      | .ok info =>
          .ok (info,
               { cached with accounts :=
                  ((address, CachedAccount.new info) :: cached.accounts) },
               [.basicCall address])

/-- `CachedReadsDbMut::storage` from `database.rs`. Occupied account:
return the cached slot or fetch it via `db.storage_ref` once. Vacant
account: load the account via `db.basic_ref`; if it exists, fetch the
slot and cache both; if it does not exist, cache the absent account and
return zero without touching provider storage. -/
def storage {ε : Type} (cached : CachedReads) (db : DatabaseRef ε)
    (address : Address) (index : U256) :
    Except ε (U256 × CachedReads × List ProviderCall) :=
  match alLookup cached.accounts address with
  | some acc =>
      match alLookup acc.storage index with
      | some value => .ok (value, cached, [])
      | none =>
          match db.storage_ref address index with
          | .error e => .error e
          | .ok value =>
              .ok (value,
                   { cached with accounts :=
                      (alUpdate (fun a => { a with storage := (index, value) :: a.storage })
                        cached.accounts address) },
                   [.storageCall address index])
  | none =>
      match db.basic_ref address with
      | .error e => .error e
      | .ok info =>
          if info.isSome then
            match db.storage_ref address index with
            | .error e => .error e
            | .ok value =>
                .ok (value,
                     { cached with accounts :=
                        ((address, { info := info, storage := [(index, value)] }) ::
                          cached.accounts) },
                     [.basicCall address, .storageCall address index])
          else
            .ok (0,
                 { cached with accounts :=
                    ((address, CachedAccount.new info) :: cached.accounts) },
                 [.basicCall address])

end CachedReadsDbMut

/-- `ChainAddress(chain_id, address)` from revm. -/
abbrev ChainAddress := Nat × Address

/-- `SyncCachedReads` from `database.rs`: the chain-qualified cache, every
key tagged with a chain id. -/
structure SyncCachedReads where
  accounts : List (ChainAddress × CachedAccount)
  contracts : List ((Nat × B256) × Bytecode)
  block_hashes : List ((Nat × Nat) × B256)
  deriving DecidableEq, Repr

/-- `to_sync_cached_reads(cache_reads, chain_id)` from `database.rs`: tag
every key of the plain cache with the given chain id. -/
def to_sync_cached_reads (cache_reads : CachedReads) (chain_id : Nat) : SyncCachedReads :=
  { accounts := cache_reads.accounts.map (fun p => ((chain_id, p.1), p.2)),
    contracts := cache_reads.contracts.map (fun p => ((chain_id, p.1), p.2)),
    block_hashes := cache_reads.block_hashes.map (fun p => ((chain_id, p.1), p.2)) }

/-- `impl From<SyncCachedReads> for CachedReads` from `database.rs`: drop
the chain-id component of every key (no filtering by chain id). -/
def CachedReads.fromSync (sync : SyncCachedReads) : CachedReads :=
  { accounts := sync.accounts.map (fun p => (p.1.2, p.2)),
    contracts := sync.contracts.map (fun p => (p.1.2, p.2)),
    block_hashes := sync.block_hashes.map (fun p => (p.1.2, p.2)) }

/-! ## The payload-builder execution loop (`crates/payload/taiko/src/builder.rs`,
`default_taiko_payload_builder`)

The EVM itself, transaction signatures and fee envelopes are external to
the builder; a pool transaction therefore carries its execution outcome
and its effective tip per gas (`effective_tip_per_gas(base_fee)`) as
oracle data. The pre-block hooks (beacon-root call, blockhashes update)
precede the loop and are absorbed into the initial database state; the
root computations performed by block assembly are external provider
capabilities and are outside every claim, so the assembled header records
only the loop-derived fields. -/

/-- `MAX_DATA_GAS_PER_BLOCK` (per-block blob-gas ceiling): 6 blobs of
`131072` blob gas each. -/
def MAX_DATA_GAS_PER_BLOCK : Nat := 786432

/-- Outcome of `evm.transact()` for one candidate, as the builder
distinguishes it: success (with `result.gas_used()` and
`result.is_success()`), the `InvalidTransaction::NonceTooLow` validation
failure, any other `EVMError::Transaction` validation failure, or any
non-validation EVM failure (fatal for the attempt). -/
inductive ExecOutcome where
  | success (gasUsed : Nat) (isOk : Bool)
  | nonceTooLow
  | invalidTx
  | fatal
  deriving DecidableEq, Repr

/-- A candidate transaction as produced by the pool's best-transactions
selector: sender/nonce identity (used by `mark_invalid` descendant
removal), its gas limit, its blob gas (`some` exactly for EIP-4844
transactions), its effective tip per gas at the block's base fee, and its
oracle execution outcome. -/
structure PoolTx where
  sender : Nat
  nonce : Nat
  gasLimit : Nat
  blobGas : Option Nat
  effectiveTip : Nat
  exec : ExecOutcome
  deriving DecidableEq, Repr

/-- The fields of a `Receipt` the loop fills in. -/
structure Receipt where
  isOk : Bool
  cumulative_gas_used : Nat
  deriving DecidableEq, Repr

/-- The mutable state of the execution loop: gas/blob-gas accumulators,
total fees, receipts, executed transactions, the selector's invalidation
marks and blob-skip flag, and the number of cancellation polls made. -/
structure LoopState where
  cumulative_gas_used : Nat
  sum_blob_gas_used : Nat
  total_fees : Nat
  receipts : List Receipt
  executed_txs : List PoolTx
  marks : List (Nat × Nat)
  skipBlobs : Bool
  polls : Nat
  deriving DecidableEq, Repr

/-- The loop's starting state. -/
def startState : LoopState :=
  { cumulative_gas_used := 0, sum_blob_gas_used := 0, total_fees := 0,
    receipts := [], executed_txs := [], marks := [], skipBlobs := false,
    polls := 0 }

/-- Whether the selector withholds `tx` from iteration: blob transactions
after `skip_blobs()`, and same-sender strictly-higher-nonce descendants of
any `mark_invalid`-ed transaction. -/
def txFiltered (st : LoopState) (tx : PoolTx) : Bool :=
  (st.skipBlobs && tx.blobGas.isSome) ||
    st.marks.any (fun m => m.1 == tx.sender && m.2 < tx.nonce)

/-- `best_txs.mark_invalid(&pool_tx)`: record the transaction's
sender/nonce so that it and its descendants are withheld from all future
iteration. -/
def markInvalid (st : LoopState) (tx : PoolTx) : LoopState :=
  { st with marks := (tx.sender, tx.nonce) :: st.marks }

/-- One cancellation poll was made and answered `false`. -/
def bumpPoll (st : LoopState) : LoopState :=
  { st with polls := st.polls + 1 }

/-- State update for a successfully executed transaction, mirroring the
source's order: commit (external), blob-gas accounting with the
`skip_blobs` signal at exact ceiling, cumulative-gas update, receipt,
fee accumulation, executed-list append. -/
def applySuccess (st : LoopState) (tx : PoolTx) (gasUsed : Nat) (isOk : Bool) : LoopState :=
  let st₁ :=
    match tx.blobGas with
    | some txBlobGas =>
        { st with sum_blob_gas_used := st.sum_blob_gas_used + txBlobGas,
                  skipBlobs :=
                    (st.skipBlobs || (st.sum_blob_gas_used + txBlobGas == MAX_DATA_GAS_PER_BLOCK)) }
    | none => st
  { st₁ with cumulative_gas_used := st₁.cumulative_gas_used + gasUsed,
             receipts :=
               (st₁.receipts ++ [{ isOk := isOk,
                                   cumulative_gas_used := st₁.cumulative_gas_used + gasUsed }]),
             total_fees := st₁.total_fees + tx.effectiveTip * gasUsed,
             executed_txs := (st₁.executed_txs ++ [tx]) }

/-- How the loop ends: early exit on cancellation, fatal EVM error, or
normal completion with the final state. -/
inductive LoopResult where
  | cancelled
  | fatal
  | done (st : LoopState)
  deriving DecidableEq, Repr

/-- The `while let Some(pool_tx) = best_txs.next()` loop of
`default_taiko_payload_builder` (builder.rs lines 230–335), per candidate
in selector order: gas-capacity check (`mark_invalid` + continue on
overflow), cancellation poll, blob-gas-capacity check (`mark_invalid` +
continue), then execution with the three failure severities and the
success bookkeeping of `applySuccess`. -/
def loopRun (block_gas_limit : Nat) (cancel : Nat → Bool) :
    List PoolTx → LoopState → LoopResult
  | [], st => .done st
  | tx :: rest, st =>
      if txFiltered st tx then loopRun block_gas_limit cancel rest st
      else if st.cumulative_gas_used + tx.gasLimit > block_gas_limit then
        loopRun block_gas_limit cancel rest (markInvalid st tx)
      else if cancel st.polls then .cancelled
      else
        let st' := bumpPoll st
        let afterBlobCheck : Option LoopState :=
          match tx.blobGas with
          | some txBlobGas =>
              if st'.sum_blob_gas_used + txBlobGas > MAX_DATA_GAS_PER_BLOCK then none
              else some st'
          | none => some st'
        match afterBlobCheck with
        | none => loopRun block_gas_limit cancel rest (markInvalid st' tx)
        | some st'' =>
            match tx.exec with
            | .fatal => .fatal
            | .nonceTooLow => loopRun block_gas_limit cancel rest st''
            | .invalidTx => loopRun block_gas_limit cancel rest (markInvalid st'' tx)
            | .success gasUsed isOk =>
                loopRun block_gas_limit cancel rest (applySuccess st'' tx gasUsed isOk)

/-- `is_better_payload(best_payload, total_fees)`: true when there is no
previous best payload or its fees are strictly below `total_fees`. -/
def is_better_payload (best_payload : Option Nat) (total_fees : Nat) : Bool :=
  match best_payload with
  | none => true
  | some fees => fees < total_fees

/-- The loop-derived fields of the sealed header (builder.rs lines
413–435); root fields come from external capabilities and are omitted. -/
structure Header where
  gas_limit : Nat
  gas_used : Nat
  blob_gas_used : Option Nat
  deriving DecidableEq, Repr

/-- The built payload: the assembled header, the executed transaction
body, and the total miner fees. -/
structure BuiltPayload where
  header : Header
  body : List PoolTx
  fees : Nat
  deriving DecidableEq, Repr

/-- Block assembly after a worthwhile attempt (builder.rs lines 343–447):
`gas_used` is the loop's cumulative gas, `blob_gas_used` is populated
exactly when Cancun is active at the attempt's timestamp. -/
def assembleBlock (cancunActive : Bool) (block_gas_limit : Nat) (st : LoopState) : BuiltPayload :=
  { header :=
      { gas_limit := block_gas_limit,
        gas_used := st.cumulative_gas_used,
        blob_gas_used := if cancunActive then some st.sum_blob_gas_used else none },
    body := st.executed_txs,
    fees := st.total_fees }

/-- `BuildOutcome`: `Better` carries the payload and the cache, `Aborted`
the total fees and the cache, `Cancelled` nothing. -/
inductive BuildOutcome where
  | better (payload : BuiltPayload) (cached_reads : CachedReads)
  | aborted (fees : Nat) (cached_reads : CachedReads)
  | cancelled
  deriving DecidableEq, Repr

/-- The attempt-fatal error (`PayloadBuilderError::EvmExecutionError`). -/
inductive PayloadBuilderError where
  | evmExecutionError
  deriving DecidableEq, Repr

/-- The outcome logic of `default_taiko_payload_builder` around the loop
(builder.rs lines 230–341 and 443–448): run the loop from the start
state; on cancellation return `Cancelled`; on a fatal execution error
propagate it; otherwise compare fees with `is_better_payload` and either
abort (returning the fees and the cache, never assembling) or assemble
the block and return `Better` with the cache. -/
def tryBuild (block_gas_limit : Nat) (cancunActive : Bool) (cancel : Nat → Bool)
    (best_payload : Option Nat) (cached_reads : CachedReads) (txs : List PoolTx) :
    Except PayloadBuilderError BuildOutcome :=
  match loopRun block_gas_limit cancel txs startState with
  | .cancelled => .ok .cancelled
  | .fatal => .error .evmExecutionError
  | .done st =>
      if !is_better_payload best_payload st.total_fees then
        .ok (.aborted st.total_fees cached_reads)
      else
        .ok (.better (assembleBlock cancunActive block_gas_limit st) cached_reads)

/-! ## Helper notions used by the theorem statements -/

/-- The cache after a vacant-account fill: `(address, CachedAccount::new(info))`
prepended (models `entry.insert(CachedAccount::new(..))`). -/
def insAccount (cached : CachedReads) (a : Address) (info : Option AccountInfo) : CachedReads :=
  { cached with accounts := ((a, CachedAccount.new info) :: cached.accounts) }

/-- The cache after filling slot `i` of an already-cached account
(models `entry.insert(self.db.storage_ref(..))` under `Entry::Occupied`). -/
def updStorage (cached : CachedReads) (a : Address) (i v : U256) : CachedReads :=
  { cached with accounts :=
      (alUpdate (fun acc => { acc with storage := (i, v) :: acc.storage })
        cached.accounts a) }

/-- The cache after a vacant-account storage fill for an existing account:
the account is inserted with the freshly fetched slot. -/
def insAccountWithSlot (cached : CachedReads) (a : Address) (info : AccountInfo)
    (i v : U256) : CachedReads :=
  { cached with accounts :=
      ((a, { info := some info, storage := [(i, v)] }) :: cached.accounts) }

/-- Per-transaction guarantee of the external execution engine: a
successful execution consumes no more gas than the transaction's gas
limit. -/
def txGasOk (tx : PoolTx) : Bool :=
  match tx.exec with
  | .success gasUsed _ => decide (gasUsed ≤ tx.gasLimit)
  | _ => true

/-- The blob-capacity check of the loop, as a predicate on the current
state: non-blob transactions always pass; a blob transaction passes when
its blob gas still fits under the ceiling. -/
def blobFits (st : LoopState) (tx : PoolTx) : Bool :=
  match tx.blobGas with
  | some txBlobGas => decide (st.sum_blob_gas_used + txBlobGas ≤ MAX_DATA_GAS_PER_BLOCK)
  | none => true

/-! ## Claims about the read cache (`database.rs`) -/

/-- C5: the cached account lookup returns the stored value with no
provider call on a hit; on a miss it queries the provider's basic lookup
exactly once, stores the result (also a `none` result) and returns it, so
a repeated lookup of the same address makes no second provider call. -/
theorem C5_cached_basic_lookup {ε : Type} (cached : CachedReads) (db : DatabaseRef ε)
    (a : Address) :
    (∀ acc, alLookup cached.accounts a = some acc →
        CachedReadsDbMut.basic cached db a = .ok (acc.info, cached, [])) ∧
    (∀ v, alLookup cached.accounts a = none → db.basic_ref a = .ok v →
        CachedReadsDbMut.basic cached db a =
            .ok (v, insAccount cached a v, [.basicCall a]) ∧
          alLookup (insAccount cached a v).accounts a = some (CachedAccount.new v) ∧
          CachedReadsDbMut.basic (insAccount cached a v) db a =
            .ok (v, insAccount cached a v, [])) := by
  constructor
  · intro acc h
    simp [CachedReadsDbMut.basic, h]
  · intro v h hdb
    refine ⟨?_, ?_, ?_⟩
    · simp [CachedReadsDbMut.basic, h, hdb, insAccount]
    · simp [insAccount, alLookup]
    · simp [CachedReadsDbMut.basic, insAccount, alLookup, CachedAccount.new]

/-- Provider fixture for the C5 witness: address 5 holds account info 7. -/
def db5 : DatabaseRef Unit :=
  { basic_ref := fun a => .ok (if a = 5 then some 7 else none),
    storage_ref := fun _ _ => .ok 0,
    code_by_hash_ref := fun _ => .ok 0,
    block_hash_ref := fun _ => .ok 0 }

/-- C5 witness: concrete miss-then-hit round trip on address 5. -/
theorem C5_cached_basic_lookup_witness :
    alLookup CachedReads.empty.accounts 5 = none ∧
    db5.basic_ref 5 = .ok (some 7) ∧
    (CachedReadsDbMut.basic CachedReads.empty db5 5 =
        .ok (some 7, insAccount CachedReads.empty 5 (some 7), [.basicCall 5]) ∧
      alLookup (insAccount CachedReads.empty 5 (some 7)).accounts 5 =
        some (CachedAccount.new (some 7)) ∧
      CachedReadsDbMut.basic (insAccount CachedReads.empty 5 (some 7)) db5 5 =
        .ok (some 7, insAccount CachedReads.empty 5 (some 7), [])) :=
  ⟨rfl, rfl, (C5_cached_basic_lookup CachedReads.empty db5 5).2 (some 7) rfl rfl⟩

/-- Provider fixture for the C6 counterexample: address 5 exists (info 7)
and every storage slot reads 42. -/
def db6 : DatabaseRef Unit :=
  { basic_ref := fun a => .ok (if a = 5 then some 7 else none),
    storage_ref := fun _ _ => .ok 42,
    code_by_hash_ref := fun _ => .ok 0,
    block_hash_ref := fun _ => .ok 0 }

/-- C6 counterexample: a storage lookup that misses the cache on an
uncached-but-existing account performs two provider queries (`basic_ref`
then `storage_ref`), not exactly one. -/
theorem C6_counterexample :
    alLookup CachedReads.empty.accounts 5 = none ∧
    CachedReadsDbMut.storage CachedReads.empty db6 5 3 =
      .ok (42, insAccountWithSlot CachedReads.empty 5 7 3 42,
           [.basicCall 5, .storageCall 5 3]) ∧
    [ProviderCall.basicCall 5, ProviderCall.storageCall 5 3].length ≠ 1 :=
  ⟨rfl, rfl, by decide⟩

/-- C6 amended: a storage miss on a cached account queries provider
storage exactly once, storing and returning the value; a storage miss on
an uncached account first queries the provider's basic lookup once and,
if the account exists, additionally queries storage once (two provider
queries), storing account and slot; if the account does not exist, zero
is returned with no storage query and only the absent account is
stored. -/
theorem C6_amended_storage_miss {ε : Type} (cached : CachedReads) (db : DatabaseRef ε)
    (a : Address) (i : U256) :
    (∀ acc v, alLookup cached.accounts a = some acc → alLookup acc.storage i = none →
        db.storage_ref a i = .ok v →
        CachedReadsDbMut.storage cached db a i =
          .ok (v, updStorage cached a i v, [.storageCall a i])) ∧
    (∀ info v, alLookup cached.accounts a = none → db.basic_ref a = .ok (some info) →
        db.storage_ref a i = .ok v →
        CachedReadsDbMut.storage cached db a i =
          .ok (v, insAccountWithSlot cached a info i v,
               [.basicCall a, .storageCall a i])) ∧
    (alLookup cached.accounts a = none → db.basic_ref a = .ok none →
        CachedReadsDbMut.storage cached db a i =
          .ok (0, insAccount cached a none, [.basicCall a])) := by
  refine ⟨?_, ?_, ?_⟩
  · intro acc v hacc hslot hdb
    simp [CachedReadsDbMut.storage, hacc, hslot, hdb, updStorage]
  · intro info v hmiss hinfo hdb
    simp [CachedReadsDbMut.storage, hmiss, hinfo, hdb, insAccountWithSlot]
  · intro hmiss hinfo
    simp [CachedReadsDbMut.storage, hmiss, hinfo, insAccount]

/-- C6 amended witness: concrete instance of the cached-account case. -/
theorem C6_amended_storage_miss_witness :
    alLookup (insAccount CachedReads.empty 5 (some 7)).accounts 5 =
        some (CachedAccount.new (some 7)) ∧
    alLookup (CachedAccount.new (some 7)).storage 3 = none ∧
    db6.storage_ref 5 3 = .ok 42 ∧
    CachedReadsDbMut.storage (insAccount CachedReads.empty 5 (some 7)) db6 5 3 =
      .ok (42, updStorage (insAccount CachedReads.empty 5 (some 7)) 5 3 42,
           [.storageCall 5 3]) :=
  ⟨rfl, rfl, rfl,
    (C6_amended_storage_miss (insAccount CachedReads.empty 5 (some 7)) db6 5 3).1
      (CachedAccount.new (some 7)) 42 rfl rfl rfl⟩

/-- C7: tagging every key of a plain cache with a chain id and projecting
back to a plain cache reproduces the original cache exactly. -/
theorem C7_round_trip (c : CachedReads) (chain_id : Nat) :
    CachedReads.fromSync (to_sync_cached_reads c chain_id) = c := by
  cases c
  simp [CachedReads.fromSync, to_sync_cached_reads, List.map_map, Function.comp_def]

/-- Two distinct cached accounts used by the C8 counterexample. -/
def acctA : CachedAccount := { info := some 11, storage := [] }

/-- Second account for the C8 counterexample. -/
def acctB : CachedAccount := { info := some 22, storage := [] }

/-- A chain-qualified cache holding entries for two distinct chain ids. -/
def syncTwoChains : SyncCachedReads :=
  { accounts := [((1, 10), acctA), ((2, 20), acctB)],
    contracts := [], block_hashes := [] }

/-- C8 counterexample: the projection keeps the entries of *both* chain
ids — whatever single chain id the projection were supposed to keep, an
entry keyed with a different chain id appears in the resulting plain
cache. -/
theorem C8_counterexample :
    ((1, 10), acctA) ∈ syncTwoChains.accounts ∧
    ((2, 20), acctB) ∈ syncTwoChains.accounts ∧
    (1 : Nat) ≠ 2 ∧
    (CachedReads.fromSync syncTwoChains).accounts = [(10, acctA), (20, acctB)] := by
  refine ⟨by simp [syncTwoChains], by simp [syncTwoChains], by decide, rfl⟩

/-- C8 amended: the chain-qualified→plain projection drops the chain id
from every key but performs no filtering — every entry, whatever its
chain id, survives into the plain cache. -/
theorem C8_amended_projection_keeps_all (sync : SyncCachedReads) (c : Nat) (k : Address)
    (v : CachedAccount) (h : ((c, k), v) ∈ sync.accounts) :
    (k, v) ∈ (CachedReads.fromSync sync).accounts := by
  have := List.mem_map_of_mem (fun p : ChainAddress × CachedAccount => (p.1.2, p.2)) h
  simpa [CachedReads.fromSync] using this

/-- C8 amended witness: the chain-2 entry of `syncTwoChains` survives the
projection. -/
theorem C8_amended_projection_keeps_all_witness :
    ((2, 20), acctB) ∈ syncTwoChains.accounts ∧
    (20, acctB) ∈ (CachedReads.fromSync syncTwoChains).accounts :=
  ⟨by simp [syncTwoChains],
    C8_amended_projection_keeps_all syncTwoChains 2 20 acctB (by simp [syncTwoChains])⟩

/-- Provider fixture for C10: address 5 does not exist; its storage reads
zero. -/
def db10 : DatabaseRef Unit :=
  { basic_ref := fun _ => .ok none,
    storage_ref := fun _ _ => .ok 0,
    code_by_hash_ref := fun _ => .ok 0,
    block_hash_ref := fun _ => .ok 0 }

/-- C10 counterexample: after the absent-account storage read is cached,
a *second* storage read of the same address still queries the provider's
storage (the trace is non-empty), contradicting "a subsequent account or
storage lookup for the same address makes no further provider call". -/
theorem C10_counterexample :
    CachedReadsDbMut.storage CachedReads.empty db10 5 3 =
      .ok (0, insAccount CachedReads.empty 5 none, [.basicCall 5]) ∧
    CachedReadsDbMut.storage (insAccount CachedReads.empty 5 none) db10 5 3 =
      .ok (0, updStorage (insAccount CachedReads.empty 5 none) 5 3 0,
           [.storageCall 5 3]) ∧
    [ProviderCall.storageCall 5 3] ≠ ([] : List ProviderCall) :=
  ⟨rfl, rfl, by decide⟩

/-- C10 amended: an uncached address whose provider account lookup
returns `none` yields a zero storage read with no provider-storage query,
and the absent account is cached so that a subsequent *account* lookup
makes no further provider call; the zero slot itself is not cached, so a
subsequent *storage* lookup for the same address queries the provider's
storage exactly once. -/
theorem C10_amended_absent_account {ε : Type} (cached : CachedReads) (db : DatabaseRef ε)
    (a : Address) (i : U256) (v : U256)
    (hmiss : alLookup cached.accounts a = none)
    (hnone : db.basic_ref a = .ok none)
    (hstor : db.storage_ref a i = .ok v) :
    CachedReadsDbMut.storage cached db a i =
        .ok (0, insAccount cached a none, [.basicCall a]) ∧
      alLookup (insAccount cached a none).accounts a = some (CachedAccount.new none) ∧
      CachedReadsDbMut.basic (insAccount cached a none) db a =
        .ok (none, insAccount cached a none, []) ∧
      CachedReadsDbMut.storage (insAccount cached a none) db a i =
        .ok (v, updStorage (insAccount cached a none) a i v, [.storageCall a i]) := by
  refine ⟨?_, ?_, ?_, ?_⟩
  · simp [CachedReadsDbMut.storage, hmiss, hnone, insAccount]
  · simp [insAccount, alLookup]
  · simp [CachedReadsDbMut.basic, insAccount, alLookup, CachedAccount.new]
  · simp [CachedReadsDbMut.storage, insAccount, alLookup, CachedAccount.new, hstor,
      updStorage]

/-- C10 amended witness: concrete absent account at address 5, slot 3. -/
theorem C10_amended_absent_account_witness :
    alLookup CachedReads.empty.accounts 5 = none ∧
    db10.basic_ref 5 = .ok none ∧
    db10.storage_ref 5 3 = .ok 0 ∧
    (CachedReadsDbMut.storage CachedReads.empty db10 5 3 =
        .ok (0, insAccount CachedReads.empty 5 none, [.basicCall 5]) ∧
      alLookup (insAccount CachedReads.empty 5 none).accounts 5 =
        some (CachedAccount.new none) ∧
      CachedReadsDbMut.basic (insAccount CachedReads.empty 5 none) db10 5 =
        .ok (none, insAccount CachedReads.empty 5 none, []) ∧
      CachedReadsDbMut.storage (insAccount CachedReads.empty 5 none) db10 5 3 =
        .ok (0, updStorage (insAccount CachedReads.empty 5 none) 5 3 0,
             [.storageCall 5 3])) :=
  ⟨rfl, rfl, rfl, C10_amended_absent_account CachedReads.empty db10 5 3 0 rfl rfl rfl⟩

/-! ## Step lemmas for the execution loop -/

/-- A selector-withheld transaction is passed over without any check. -/
theorem loopRun_cons_filtered (limit : Nat) (cancel : Nat → Bool) (tx : PoolTx)
    (rest : List PoolTx) (st : LoopState) (hf : txFiltered st tx = true) :
    loopRun limit cancel (tx :: rest) st = loopRun limit cancel rest st := by
  simp [loopRun, hf]

/-- A candidate that does not fit the remaining gas budget is marked
invalid and skipped. -/
theorem loopRun_cons_gas_over (limit : Nat) (cancel : Nat → Bool) (tx : PoolTx)
    (rest : List PoolTx) (st : LoopState) (hf : txFiltered st tx = false)
    (hg : st.cumulative_gas_used + tx.gasLimit > limit) :
    loopRun limit cancel (tx :: rest) st =
      loopRun limit cancel rest (markInvalid st tx) := by
  simp [loopRun, hf, hg]

/-- A candidate that fits the gas budget triggers the cancellation poll;
if cancellation is observed the loop exits with `cancelled`. -/
theorem loopRun_cons_cancelled (limit : Nat) (cancel : Nat → Bool) (tx : PoolTx)
    (rest : List PoolTx) (st : LoopState) (hf : txFiltered st tx = false)
    (hg : st.cumulative_gas_used + tx.gasLimit ≤ limit)
    (hc : cancel st.polls = true) :
    loopRun limit cancel (tx :: rest) st = .cancelled := by
  simp [loopRun, hf, Nat.not_lt.mpr hg, hc]

/-- A blob candidate that does not fit the remaining blob-gas budget is
marked invalid and skipped. -/
theorem loopRun_cons_blob_over (limit : Nat) (cancel : Nat → Bool) (tx : PoolTx)
    (rest : List PoolTx) (st : LoopState) (txBlobGas : Nat)
    (hf : txFiltered st tx = false)
    (hg : st.cumulative_gas_used + tx.gasLimit ≤ limit)
    (hc : cancel st.polls = false)
    (hbg : tx.blobGas = some txBlobGas)
    (hover : st.sum_blob_gas_used + txBlobGas > MAX_DATA_GAS_PER_BLOCK) :
    loopRun limit cancel (tx :: rest) st =
      loopRun limit cancel rest (markInvalid (bumpPoll st) tx) := by
  simp [loopRun, hf, Nat.not_lt.mpr hg, hc, hbg, bumpPoll, hover]

/-- A fully admitted candidate whose execution hits a non-validation EVM
failure aborts the attempt. -/
theorem loopRun_cons_fatal (limit : Nat) (cancel : Nat → Bool) (tx : PoolTx)
    (rest : List PoolTx) (st : LoopState) (hf : txFiltered st tx = false)
    (hg : st.cumulative_gas_used + tx.gasLimit ≤ limit)
    (hc : cancel st.polls = false)
    (hblob : blobFits st tx = true)
    (hexec : tx.exec = .fatal) :
    loopRun limit cancel (tx :: rest) st = .fatal := by
  cases hbg : tx.blobGas with
  | none => simp [loopRun, hf, Nat.not_lt.mpr hg, hc, hbg, hexec]
  | some g =>
      have hfits : st.sum_blob_gas_used + g ≤ MAX_DATA_GAS_PER_BLOCK := by
        have := hblob
        simp [blobFits, hbg] at this
        exact this
      simp [loopRun, hf, Nat.not_lt.mpr hg, hc, hbg, bumpPoll, Nat.not_lt.mpr hfits, hexec]

/-- A fully admitted candidate with a nonce-too-low validation failure is
skipped without `mark_invalid`. -/
theorem loopRun_cons_nonce_too_low (limit : Nat) (cancel : Nat → Bool) (tx : PoolTx)
    (rest : List PoolTx) (st : LoopState) (hf : txFiltered st tx = false)
    (hg : st.cumulative_gas_used + tx.gasLimit ≤ limit)
    (hc : cancel st.polls = false)
    (hblob : blobFits st tx = true)
    (hexec : tx.exec = .nonceTooLow) :
    loopRun limit cancel (tx :: rest) st = loopRun limit cancel rest (bumpPoll st) := by
  cases hbg : tx.blobGas with
  | none => simp [loopRun, hf, Nat.not_lt.mpr hg, hc, hbg, hexec, bumpPoll]
  | some g =>
      have hfits : st.sum_blob_gas_used + g ≤ MAX_DATA_GAS_PER_BLOCK := by
        have := hblob
        simp [blobFits, hbg] at this
        exact this
      simp [loopRun, hf, Nat.not_lt.mpr hg, hc, hbg, bumpPoll, Nat.not_lt.mpr hfits, hexec]

/-- A fully admitted candidate with any other validation failure is
marked invalid and skipped. -/
theorem loopRun_cons_invalid (limit : Nat) (cancel : Nat → Bool) (tx : PoolTx)
    (rest : List PoolTx) (st : LoopState) (hf : txFiltered st tx = false)
    (hg : st.cumulative_gas_used + tx.gasLimit ≤ limit)
    (hc : cancel st.polls = false)
    (hblob : blobFits st tx = true)
    (hexec : tx.exec = .invalidTx) :
    loopRun limit cancel (tx :: rest) st =
      loopRun limit cancel rest (markInvalid (bumpPoll st) tx) := by
  cases hbg : tx.blobGas with
  | none => simp [loopRun, hf, Nat.not_lt.mpr hg, hc, hbg, hexec, bumpPoll]
  | some g =>
      have hfits : st.sum_blob_gas_used + g ≤ MAX_DATA_GAS_PER_BLOCK := by
        have := hblob
        simp [blobFits, hbg] at this
        exact this
      simp [loopRun, hf, Nat.not_lt.mpr hg, hc, hbg, bumpPoll, Nat.not_lt.mpr hfits, hexec]

/-- A fully admitted candidate that executes successfully updates the
accumulators via `applySuccess` and the loop continues. -/
theorem loopRun_cons_success (limit : Nat) (cancel : Nat → Bool) (tx : PoolTx)
    (rest : List PoolTx) (st : LoopState) (gasUsed : Nat) (isOk : Bool)
    (hf : txFiltered st tx = false)
    (hg : st.cumulative_gas_used + tx.gasLimit ≤ limit)
    (hc : cancel st.polls = false)
    (hblob : blobFits st tx = true)
    (hexec : tx.exec = .success gasUsed isOk) :
    loopRun limit cancel (tx :: rest) st =
      loopRun limit cancel rest (applySuccess (bumpPoll st) tx gasUsed isOk) := by
  cases hbg : tx.blobGas with
  | none => simp [loopRun, hf, Nat.not_lt.mpr hg, hc, hbg, hexec, bumpPoll]
  | some g =>
      have hfits : st.sum_blob_gas_used + g ≤ MAX_DATA_GAS_PER_BLOCK := by
        have := hblob
        simp [blobFits, hbg] at this
        exact this
      simp [loopRun, hf, Nat.not_lt.mpr hg, hc, hbg, bumpPoll, Nat.not_lt.mpr hfits, hexec]

/-- Main loop invariant: provided every successful execution stays within
its transaction's gas limit, the loop keeps the cumulative gas within the
block gas limit and the cumulative blob gas within the per-block ceiling,
at every recorded receipt and at completion. -/
theorem loopRun_bounds_aux (limit : Nat) (cancel : Nat → Bool) (txs : List PoolTx) :
    ∀ (st stFin : LoopState),
      txs.all txGasOk = true →
      st.cumulative_gas_used ≤ limit →
      st.sum_blob_gas_used ≤ MAX_DATA_GAS_PER_BLOCK →
      (∀ r ∈ st.receipts, r.cumulative_gas_used ≤ limit) →
      loopRun limit cancel txs st = .done stFin →
      stFin.cumulative_gas_used ≤ limit ∧
        stFin.sum_blob_gas_used ≤ MAX_DATA_GAS_PER_BLOCK ∧
        ∀ r ∈ stFin.receipts, r.cumulative_gas_used ≤ limit := by
  induction txs with
  | nil =>
      intro st stFin _ hcum hblob hrec hrun
      simp only [loopRun] at hrun
      cases hrun
      exact ⟨hcum, hblob, hrec⟩
  | cons tx rest ih =>
      intro st stFin hall hcum hblob hrec hrun
      simp only [List.all_cons, Bool.and_eq_true] at hall
      obtain ⟨htx, hrest⟩ := hall
      by_cases hf : txFiltered st tx = true
      · rw [loopRun_cons_filtered limit cancel tx rest st hf] at hrun
        exact ih st stFin hrest hcum hblob hrec hrun
      have hf' : txFiltered st tx = false := by
        simpa using hf
      by_cases hg : st.cumulative_gas_used + tx.gasLimit > limit
      · rw [loopRun_cons_gas_over limit cancel tx rest st hf' hg] at hrun
        exact ih (markInvalid st tx) stFin hrest hcum hblob hrec hrun
      have hg' : st.cumulative_gas_used + tx.gasLimit ≤ limit := Nat.not_lt.mp hg
      by_cases hc : cancel st.polls = true
      · rw [loopRun_cons_cancelled limit cancel tx rest st hf' hg' hc] at hrun
        cases hrun
      have hc' : cancel st.polls = false := by
        simpa using hc
      cases hbg : tx.blobGas with
      | some g =>
          by_cases hov : st.sum_blob_gas_used + g > MAX_DATA_GAS_PER_BLOCK
          · rw [loopRun_cons_blob_over limit cancel tx rest st g hf' hg' hc' hbg hov] at hrun
            exact ih (markInvalid (bumpPoll st) tx) stFin hrest hcum hblob hrec hrun
          have hfitNat : st.sum_blob_gas_used + g ≤ MAX_DATA_GAS_PER_BLOCK := Nat.not_lt.mp hov
          have hfit : blobFits st tx = true := by
            simp [blobFits, hbg, hfitNat]
          cases hex : tx.exec with
          | fatal =>
              rw [loopRun_cons_fatal limit cancel tx rest st hf' hg' hc' hfit hex] at hrun
              cases hrun
          | nonceTooLow =>
              rw [loopRun_cons_nonce_too_low limit cancel tx rest st hf' hg' hc' hfit hex] at hrun
              exact ih (bumpPoll st) stFin hrest hcum hblob hrec hrun
          | invalidTx =>
              rw [loopRun_cons_invalid limit cancel tx rest st hf' hg' hc' hfit hex] at hrun
              exact ih (markInvalid (bumpPoll st) tx) stFin hrest hcum hblob hrec hrun
          | success u isOk =>
              rw [loopRun_cons_success limit cancel tx rest st u isOk hf' hg' hc' hfit hex]
                at hrun
              have hu : u ≤ tx.gasLimit := by
                simpa [txGasOk, hex] using htx
              have hcum' : st.cumulative_gas_used + u ≤ limit :=
                le_trans (Nat.add_le_add_left hu _) hg'
              refine ih (applySuccess (bumpPoll st) tx u isOk) stFin hrest ?_ ?_ ?_ hrun
              · simpa [applySuccess, hbg, bumpPoll] using hcum'
              · simpa [applySuccess, hbg, bumpPoll] using hfitNat
              · intro r hr
                simp only [applySuccess, hbg, bumpPoll, List.mem_append,
                  List.mem_singleton] at hr
                rcases hr with hr | hr
                · exact hrec r hr
                · subst hr
                  simpa using hcum'
      | none =>
          have hfit : blobFits st tx = true := by
            simp [blobFits, hbg]
          cases hex : tx.exec with
          | fatal =>
              rw [loopRun_cons_fatal limit cancel tx rest st hf' hg' hc' hfit hex] at hrun
              cases hrun
          | nonceTooLow =>
              rw [loopRun_cons_nonce_too_low limit cancel tx rest st hf' hg' hc' hfit hex] at hrun
              exact ih (bumpPoll st) stFin hrest hcum hblob hrec hrun
          | invalidTx =>
              rw [loopRun_cons_invalid limit cancel tx rest st hf' hg' hc' hfit hex] at hrun
              exact ih (markInvalid (bumpPoll st) tx) stFin hrest hcum hblob hrec hrun
          | success u isOk =>
              rw [loopRun_cons_success limit cancel tx rest st u isOk hf' hg' hc' hfit hex]
                at hrun
              have hu : u ≤ tx.gasLimit := by
                simpa [txGasOk, hex] using htx
              have hcum' : st.cumulative_gas_used + u ≤ limit :=
                le_trans (Nat.add_le_add_left hu _) hg'
              refine ih (applySuccess (bumpPoll st) tx u isOk) stFin hrest ?_ ?_ ?_ hrun
              · simpa [applySuccess, hbg, bumpPoll] using hcum'
              · simpa [applySuccess, hbg, bumpPoll] using hblob
              · intro r hr
                simp only [applySuccess, hbg, bumpPoll, List.mem_append,
                  List.mem_singleton] at hr
                rcases hr with hr | hr
                · exact hrec r hr
                · subst hr
                  simpa using hcum'

/-! ## Claims about the execution loop and build outcome (`builder.rs`) -/

/-- C1: provided the execution engine never reports more gas used than a
transaction's gas limit, every build attempt keeps the cumulative gas
within the block gas limit and the cumulative blob gas within
`MAX_DATA_GAS_PER_BLOCK` — at every receipt, at loop completion, and in
the final header's `gas_used`/`blob_gas_used` fields. -/
theorem C1_gas_and_blob_gas_bounds (limit : Nat) (cancunActive : Bool) (cancel : Nat → Bool)
    (best_payload : Option Nat) (cached_reads : CachedReads) (txs : List PoolTx)
    (hall : txs.all txGasOk = true) :
    (∀ stFin, loopRun limit cancel txs startState = .done stFin →
        stFin.cumulative_gas_used ≤ limit ∧
          stFin.sum_blob_gas_used ≤ MAX_DATA_GAS_PER_BLOCK ∧
          ∀ r ∈ stFin.receipts, r.cumulative_gas_used ≤ limit) ∧
    (∀ p c, tryBuild limit cancunActive cancel best_payload cached_reads txs =
          .ok (.better p c) →
        p.header.gas_used ≤ limit ∧
          ∀ b, p.header.blob_gas_used = some b → b ≤ MAX_DATA_GAS_PER_BLOCK) := by
  have haux := loopRun_bounds_aux limit cancel txs
  constructor
  · intro stFin hrun
    exact haux startState stFin hall (Nat.zero_le _) (Nat.zero_le _)
      (by simp [startState]) hrun
  · intro p c hb
    unfold tryBuild at hb
    cases hloop : loopRun limit cancel txs startState with
    | cancelled => rw [hloop] at hb; cases hb
    | fatal => rw [hloop] at hb; cases hb
    | done st =>
        rw [hloop] at hb
        have hbounds := haux startState st hall (Nat.zero_le _) (Nat.zero_le _)
          (by simp [startState]) hloop
        by_cases hbet : is_better_payload best_payload st.total_fees = true
        · simp only [hbet, Bool.not_true, Bool.false_eq_true, if_false,
            Except.ok.injEq, BuildOutcome.better.injEq] at hb
          obtain ⟨hp, _⟩ := hb
          subst hp
          constructor
          · simpa [assembleBlock] using hbounds.1
          · intro b hbgu
            cases cancunActive with
            | true =>
                simp only [assembleBlock, if_true] at hbgu
                cases hbgu
                exact hbounds.2.1
            | false => simp [assembleBlock] at hbgu
        · have hbet' : is_better_payload best_payload st.total_fees = false := by
            simpa using hbet
          simp [hbet'] at hb

/-- The single ordinary transaction of the C1 witness. -/
def c1Tx : PoolTx :=
  { sender := 0, nonce := 0, gasLimit := 21000, blobGas := none,
    effectiveTip := 2, exec := .success 21000 true }

/-- The loop state after executing `c1Tx` from the start state. -/
def c1Final : LoopState :=
  { cumulative_gas_used := 21000, sum_blob_gas_used := 0, total_fees := 42000,
    receipts := [{ isOk := true, cumulative_gas_used := 21000 }],
    executed_txs := [c1Tx], marks := [], skipBlobs := false, polls := 1 }

/-- C1 witness: concrete one-transaction attempt within all bounds. -/
theorem C1_gas_and_blob_gas_bounds_witness :
    ([c1Tx].all txGasOk = true) ∧
    (c1Final.cumulative_gas_used ≤ 100000 ∧
      c1Final.sum_blob_gas_used ≤ MAX_DATA_GAS_PER_BLOCK ∧
      ∀ r ∈ c1Final.receipts, r.cumulative_gas_used ≤ 100000) :=
  ⟨rfl,
    (C1_gas_and_blob_gas_bounds 100000 false (fun _ => false) none CachedReads.empty
      [c1Tx] rfl).1 c1Final rfl⟩

/-- A candidate that exceeds the whole block gas limit from an empty
block; used to exhibit the loop's check order. -/
def c2OverGasTx : PoolTx :=
  { sender := 0, nonce := 0, gasLimit := 200, blobGas := none,
    effectiveTip := 1, exec := .success 100 true }

/-- C2 counterexample: with cancellation requested from the very start
(the cancel flag constantly `true`) and a single candidate that fails the
gas-capacity check, the loop still calls `mark_invalid` for that
candidate (cancellation was *not* its first check) and the attempt ends
in `Aborted`, not `Cancelled`. -/
theorem C2_counterexample :
    (fun _ : Nat => true) 0 = true ∧
    loopRun 100 (fun _ => true) [c2OverGasTx] startState =
      .done { startState with marks := [(0, 0)] } ∧
    tryBuild 100 false (fun _ => true) (some 5) CachedReads.empty [c2OverGasTx] =
      .ok (.aborted 0 CachedReads.empty) :=
  ⟨rfl, rfl, rfl⟩

/-- C2 amended: the gas-capacity check runs first; cancellation is polled
second, once per candidate that passes the gas check, and when observed
there the loop stops immediately and the attempt reports exactly
`Cancelled`, with no payload and no sealed header. Candidates failing the
gas check are still marked invalid even while cancellation is pending. -/
theorem C2_amended_cancellation_after_gas_check (limit : Nat) (cancel : Nat → Bool)
    (cancunActive : Bool) (best_payload : Option Nat) (cached_reads : CachedReads)
    (tx : PoolTx) (rest : List PoolTx)
    (hfit : tx.gasLimit ≤ limit) (hcancel : cancel 0 = true) :
    loopRun limit cancel (tx :: rest) startState = .cancelled ∧
    tryBuild limit cancunActive cancel best_payload cached_reads (tx :: rest) =
      .ok .cancelled := by
  have hf : txFiltered startState tx = false := by
    simp [txFiltered, startState]
  have hg : startState.cumulative_gas_used + tx.gasLimit ≤ limit := by
    simpa [startState] using hfit
  have h1 := loopRun_cons_cancelled limit cancel tx rest startState hf hg
    (by simpa [startState] using hcancel)
  refine ⟨h1, ?_⟩
  unfold tryBuild
  rw [h1]

/-- A candidate that fits the gas limit; used by the C2 witness. -/
def c2FitTx : PoolTx :=
  { sender := 0, nonce := 0, gasLimit := 50, blobGas := none,
    effectiveTip := 1, exec := .success 40 true }

/-- C2 amended witness: concrete cancelled attempt. -/
theorem C2_amended_cancellation_after_gas_check_witness :
    (c2FitTx.gasLimit ≤ 100 ∧ (fun _ : Nat => true) 0 = true) ∧
    (loopRun 100 (fun _ => true) [c2FitTx] startState = .cancelled ∧
      tryBuild 100 false (fun _ => true) (some 5) CachedReads.empty [c2FitTx] =
        .ok .cancelled) :=
  ⟨⟨by decide, rfl⟩,
    C2_amended_cancellation_after_gas_check 100 (fun _ => true) false (some 5)
      CachedReads.empty c2FitTx [] (by decide) rfl⟩

/-- C3: for a fully admitted candidate, a nonce-too-low validation
failure skips only that transaction (no `mark_invalid`, so the selector's
filter — and hence the selectability of same-sender higher-nonce
descendants — is unchanged); any other validation failure marks the
candidate invalid and continues; any non-validation execution failure
aborts the attempt with the fatal `EvmExecutionError`. -/
theorem C3_execution_failure_severities (limit : Nat) (cancel : Nat → Bool) (tx : PoolTx)
    (rest : List PoolTx) (st : LoopState)
    (hf : txFiltered st tx = false)
    (hg : st.cumulative_gas_used + tx.gasLimit ≤ limit)
    (hc : cancel st.polls = false)
    (hblob : blobFits st tx = true) :
    (tx.exec = .nonceTooLow →
        loopRun limit cancel (tx :: rest) st = loopRun limit cancel rest (bumpPoll st) ∧
        (bumpPoll st).marks = st.marks ∧
        ∀ t, txFiltered (bumpPoll st) t = txFiltered st t) ∧
    (tx.exec = .invalidTx →
        loopRun limit cancel (tx :: rest) st =
          loopRun limit cancel rest (markInvalid (bumpPoll st) tx) ∧
        (markInvalid (bumpPoll st) tx).marks = (tx.sender, tx.nonce) :: st.marks) ∧
    (tx.exec = .fatal →
        loopRun limit cancel (tx :: rest) st = .fatal) ∧
    (∀ cancunActive best_payload cached_reads txs,
        loopRun limit cancel txs startState = .fatal →
        tryBuild limit cancunActive cancel best_payload cached_reads txs =
          .error .evmExecutionError) := by
  refine ⟨?_, ?_, ?_, ?_⟩
  · intro hexec
    exact ⟨loopRun_cons_nonce_too_low limit cancel tx rest st hf hg hc hblob hexec,
      rfl, fun t => rfl⟩
  · intro hexec
    exact ⟨loopRun_cons_invalid limit cancel tx rest st hf hg hc hblob hexec, rfl⟩
  · intro hexec
    exact loopRun_cons_fatal limit cancel tx rest st hf hg hc hblob hexec
  · intro cancunActive best_payload cached_reads txs hfatal
    unfold tryBuild
    rw [hfatal]

/-- Transactions exercising the three execution-failure severities. -/
def c3NonceTx : PoolTx :=
  { sender := 3, nonce := 1, gasLimit := 50, blobGas := none,
    effectiveTip := 1, exec := .nonceTooLow }

/-- A candidate failing validation for another reason. -/
def c3InvalidTx : PoolTx :=
  { sender := 3, nonce := 2, gasLimit := 50, blobGas := none,
    effectiveTip := 1, exec := .invalidTx }

/-- A candidate whose execution fails fatally. -/
def c3FatalTx : PoolTx :=
  { sender := 3, nonce := 3, gasLimit := 50, blobGas := none,
    effectiveTip := 1, exec := .fatal }

/-- C3 witness: the three severities at concrete inputs, each conclusion
obtained by applying the severity theorem. -/
theorem C3_execution_failure_severities_witness :
    (txFiltered startState c3NonceTx = false ∧
      startState.cumulative_gas_used + c3NonceTx.gasLimit ≤ 100 ∧
      (fun _ : Nat => false) startState.polls = false ∧
      blobFits startState c3NonceTx = true) ∧
    (loopRun 100 (fun _ => false) [c3NonceTx] startState =
        loopRun 100 (fun _ => false) [] (bumpPoll startState) ∧
      (bumpPoll startState).marks = startState.marks ∧
      ∀ t, txFiltered (bumpPoll startState) t = txFiltered startState t) ∧
    (loopRun 100 (fun _ => false) [c3InvalidTx] startState =
        loopRun 100 (fun _ => false) [] (markInvalid (bumpPoll startState) c3InvalidTx) ∧
      (markInvalid (bumpPoll startState) c3InvalidTx).marks =
        (c3InvalidTx.sender, c3InvalidTx.nonce) :: startState.marks) ∧
    (loopRun 100 (fun _ => false) [c3FatalTx] startState = .fatal) ∧
    tryBuild 100 false (fun _ => false) none CachedReads.empty [c3FatalTx] =
      .error .evmExecutionError := by
  have hn := C3_execution_failure_severities 100 (fun _ => false) c3NonceTx [] startState
    rfl (by decide) rfl rfl
  have hi := C3_execution_failure_severities 100 (fun _ => false) c3InvalidTx [] startState
    rfl (by decide) rfl rfl
  have hfa := C3_execution_failure_severities 100 (fun _ => false) c3FatalTx [] startState
    rfl (by decide) rfl rfl
  refine ⟨⟨rfl, by decide, rfl, rfl⟩, hn.1 rfl, hi.2.1 rfl, hfa.2.2.1 rfl, ?_⟩
  exact hfa.2.2.2 false none CachedReads.empty [c3FatalTx] (hfa.2.2.1 rfl)

/-- C4: after the loop completes normally, fees not strictly above the
previous best payload's fees give exactly `Aborted` with the total fees
and the cache passed in (block assembly is never invoked — `Aborted`
carries no payload); strictly greater fees give `Better` with the
assembled payload and that same cache. -/
theorem C4_fee_comparison_outcome (limit : Nat) (cancunActive : Bool) (cancel : Nat → Bool)
    (cached_reads : CachedReads) (txs : List PoolTx) (st : LoopState) (b : Nat)
    (hdone : loopRun limit cancel txs startState = .done st) :
    (st.total_fees ≤ b →
        tryBuild limit cancunActive cancel (some b) cached_reads txs =
          .ok (.aborted st.total_fees cached_reads)) ∧
    (b < st.total_fees →
        tryBuild limit cancunActive cancel (some b) cached_reads txs =
          .ok (.better (assembleBlock cancunActive limit st) cached_reads)) := by
  constructor
  · intro hle
    unfold tryBuild
    rw [hdone]
    have hfalse : is_better_payload (some b) st.total_fees = false := by
      simp [is_better_payload, Nat.not_lt.mpr hle]
    simp [hfalse]
  · intro hlt
    unfold tryBuild
    rw [hdone]
    have htrue : is_better_payload (some b) st.total_fees = true := by
      simp [is_better_payload, hlt]
    simp [htrue]

/-- A transaction collecting exactly 100 in fees (tip 1 × gas 100). -/
def c4Tx : PoolTx :=
  { sender := 0, nonce := 0, gasLimit := 100, blobGas := none,
    effectiveTip := 1, exec := .success 100 true }

/-- The loop state after executing `c4Tx` from the start state. -/
def c4Final : LoopState :=
  { cumulative_gas_used := 100, sum_blob_gas_used := 0, total_fees := 100,
    receipts := [{ isOk := true, cumulative_gas_used := 100 }],
    executed_txs := [c4Tx], marks := [], skipBlobs := false, polls := 1 }

/-- C4 witness: the spec's abort-on-no-improvement scenario — previous
best fee 100, newly built total fee 100 — yields `Aborted` with fees 100
and the cache passed in. -/
theorem C4_fee_comparison_outcome_witness :
    loopRun 1000 (fun _ => false) [c4Tx] startState = .done c4Final ∧
    c4Final.total_fees ≤ 100 ∧
    tryBuild 1000 false (fun _ => false) (some 100) CachedReads.empty [c4Tx] =
      .ok (.aborted c4Final.total_fees CachedReads.empty) :=
  ⟨rfl, by decide,
    (C4_fee_comparison_outcome 1000 false (fun _ => false) CachedReads.empty [c4Tx]
      c4Final 100 rfl).1 (by decide)⟩

/-- C9: when a successfully executed blob transaction brings the
cumulative blob gas to the per-block ceiling exactly, the selector's
blob-skip flag is raised, every remaining blob transaction is withheld
from iteration (omitted without being individually evaluated), and the
filtering of non-blob transactions is unchanged. -/
theorem C9_blob_ceiling_skip (limit : Nat) (cancel : Nat → Bool) (tx : PoolTx)
    (rest : List PoolTx) (st : LoopState) (g gasUsed : Nat) (isOk : Bool)
    (hf : txFiltered st tx = false)
    (hg : st.cumulative_gas_used + tx.gasLimit ≤ limit)
    (hc : cancel st.polls = false)
    (hbg : tx.blobGas = some g)
    (hexec : tx.exec = .success gasUsed isOk)
    (hexact : st.sum_blob_gas_used + g = MAX_DATA_GAS_PER_BLOCK) :
    loopRun limit cancel (tx :: rest) st =
        loopRun limit cancel rest (applySuccess (bumpPoll st) tx gasUsed isOk) ∧
      (applySuccess (bumpPoll st) tx gasUsed isOk).skipBlobs = true ∧
      (∀ tb : PoolTx, tb.blobGas.isSome →
          txFiltered (applySuccess (bumpPoll st) tx gasUsed isOk) tb = true) ∧
      (∀ tn : PoolTx, tn.blobGas = none →
          txFiltered (applySuccess (bumpPoll st) tx gasUsed isOk) tn = txFiltered st tn) := by
  have hfit : blobFits st tx = true := by
    simp [blobFits, hbg, le_of_eq hexact]
  have hskip : (applySuccess (bumpPoll st) tx gasUsed isOk).skipBlobs = true := by
    simp [applySuccess, hbg, bumpPoll, hexact]
  refine ⟨loopRun_cons_success limit cancel tx rest st gasUsed isOk hf hg hc hfit hexec,
    hskip, ?_, ?_⟩
  · intro tb htb
    simp [txFiltered, hskip, htb]
  · intro tn htn
    simp [txFiltered, applySuccess, hbg, bumpPoll, htn]

/-- The blob transaction that fills the blob budget exactly. -/
def c9BlobTx : PoolTx :=
  { sender := 0, nonce := 0, gasLimit := 21000, blobGas := some 786432,
    effectiveTip := 1, exec := .success 21000 true }

/-- A later blob transaction, to be skipped unexamined. -/
def c9LaterBlobTx : PoolTx :=
  { sender := 1, nonce := 0, gasLimit := 21000, blobGas := some 131072,
    effectiveTip := 1, exec := .success 21000 true }

/-- A later ordinary transaction, still considered. -/
def c9PlainTx : PoolTx :=
  { sender := 2, nonce := 0, gasLimit := 21000, blobGas := none,
    effectiveTip := 1, exec := .success 21000 true }

/-- C9 witness: the exact-ceiling blob transaction raises the skip flag;
the later blob transaction is withheld while the plain one is not. -/
theorem C9_blob_ceiling_skip_witness :
    (startState.sum_blob_gas_used + 786432 = MAX_DATA_GAS_PER_BLOCK) ∧
    (loopRun 1000000 (fun _ => false) [c9BlobTx, c9LaterBlobTx, c9PlainTx] startState =
        loopRun 1000000 (fun _ => false) [c9LaterBlobTx, c9PlainTx]
          (applySuccess (bumpPoll startState) c9BlobTx 21000 true) ∧
      (applySuccess (bumpPoll startState) c9BlobTx 21000 true).skipBlobs = true ∧
      txFiltered (applySuccess (bumpPoll startState) c9BlobTx 21000 true) c9LaterBlobTx =
        true ∧
      txFiltered (applySuccess (bumpPoll startState) c9BlobTx 21000 true) c9PlainTx =
        txFiltered startState c9PlainTx) := by
  have h := C9_blob_ceiling_skip 1000000 (fun _ => false) c9BlobTx
    [c9LaterBlobTx, c9PlainTx] startState 786432 21000 true rfl (by decide) rfl rfl rfl
    (by decide)
  exact ⟨by decide, h.1, h.2.1, h.2.2.1 c9LaterBlobTx rfl, h.2.2.2 c9PlainTx rfl⟩

end TaikoReth
